import Mathlib

/-!
Verification of the trend-ingestion, classification, analysis and caching
logic of the DMEDIA social-trends dashboard.  The TypeScript sources
(`services/gemini.ts`, the application root component and the analysis
modal component) are shallowly embedded below: external HTTP calls are
parameters describing the outcome of the call, `localStorage` is an
explicit key-value store, and the per-call `Math.random()` draw of the
heat-rise estimator is a per-index rational parameter.
-/

namespace DMedia

/-! ### Basic string utilities (JavaScript `String.prototype.includes`) -/

/-- `listStarts needle hay` holds when `needle` is a prefix of `hay`
(character-by-character comparison). -/
def listStarts : List Char → List Char → Bool
  | [], _ => true
  | _ :: _, [] => false
  | c :: cs, d :: ds => c == d && listStarts cs ds

/-- `listHas needle hay` holds when `needle` occurs contiguously anywhere in
`hay`; this is the semantics of JavaScript `hay.includes(needle)`
(case-sensitive, no tokenization, the empty needle always matches). -/
def listHas (needle : List Char) : List Char → Bool
  | [] => listStarts needle []
  | d :: ds => listStarts needle (d :: ds) || listHas needle ds

/-- JavaScript `hay.includes(needle)` on strings. -/
def strIncludes (hay needle : String) : Bool :=
  listHas needle.data hay.data

/-! ### Data model (from `types.ts`) -/

/-- `TrendItem` from `types.ts`.  Numbers are embedded as integers (ranks,
hot values and heat rises are integral in every code path). -/
structure TrendItem where
  rank : Int
  title : String
  hotValue : Int
  category : String
  heatRise : Int
  description : String
  deriving DecidableEq, Repr

/-- The fixed category set `CATEGORIES` from `types.ts`. -/
def CATEGORIES : List String :=
  ["社会民生", "娱乐精选", "科技数码", "时尚生活", "情感日常", "兴趣垂类"]

/-- One raw entry of the vendor `word_list`: the fields of it that
`parseDouyinData` reads.  `hot_value`/`position` are `Option` because the
vendor JSON may omit them (JavaScript `undefined`); the code defaults both
with falsy checks. -/
structure RawItem where
  word : String
  hot_value : Option Int
  position : Option Int
  deriving DecidableEq, Repr

/-! ### Heat-rise estimator (`calculateHeatRise`, gemini.ts:154-157) -/

/-- `calculateHeatRise` from gemini.ts.  The source draws
`percentage = Math.random() * 0.07 + 0.01` and returns
`Math.floor(totalHotValue * percentage)`; the draw is embedded as the
rational argument `percentage` (theorems hypothesise
`1/100 ≤ percentage < 2/25`, the range of the draw). -/
def calculateHeatRise (totalHotValue : Int) (percentage : ℚ) : Int :=
  ⌊(totalHotValue : ℚ) * percentage⌋

/-! ### Keyword classifier (`KEYWORD_MAP`, `determineCategory`, gemini.ts:161-187) -/

/-- `KEYWORD_MAP` from gemini.ts, in source iteration order
(`Object.entries` iterates string keys in insertion order). -/
def KEYWORD_MAP : List (String × List String) :=
  [("娱乐精选", ["剧", "电影", "明星", "演员", "综艺", "演唱会", "歌", "舞", "网红", "直播",
                "游戏", "电竞", "王者", "原神", "吃鸡", "笑", "梗", "瓜", "爆料", "前任", "现任"]),
   ("社会民生", ["新闻", "事件", "回应", "官方", "通报", "政策", "经济", "股市", "基金", "工资",
                "招聘", "工作", "职场", "教育", "学校", "考试", "历史", "文化", "农业", "农村"]),
   ("科技数码", ["AI", "人工智能", "手机", "苹果", "华为", "小米", "电脑", "汽车", "新能源",
                "驾驶", "航天", "科学", "技术", "发明", "未来"]),
   ("时尚生活", ["穿搭", "妆", "护肤", "口红", "包包", "奢侈品", "装修", "家居", "设计", "改造",
                "旅游", "景点", "打卡", "拍照", "摄影"]),
   ("情感日常", ["猫", "狗", "宠", "娃", "宝宝", "老公", "老婆", "男友", "女友", "恋爱", "分手",
                "结婚", "离婚", "Vlog", "日常", "记录", "感人", "泪目"]),
   ("兴趣垂类", ["吃", "美食", "菜", "饭", "烹饪", "健身", "减肥", "运动", "瑜伽", "跑步",
                "养生", "健康", "病", "医"])]

/-- The inner scoring loop of `determineCategory`: one point per keyword
occurring as a substring of the title. -/
def score (title : String) (kws : List String) : Nat :=
  kws.foldl (fun s k => if strIncludes title k then s + 1 else s) 0

/-- One step of the outer loop of `determineCategory`: replace the best
category when the current score is strictly greater. -/
def catStep (title : String) (acc : Nat × String) (p : String × List String) : Nat × String :=
  if score title p.2 > acc.1 then (score title p.2, p.1) else acc

/-- `determineCategory` from gemini.ts: fold the keyword table with
`maxScore = 0`, `bestCategory = "社会民生"`. -/
def determineCategory (title : String) : String :=
  (KEYWORD_MAP.foldl (catStep title) (0, "社会民生")).2

/-- The final value of the loop's `maxScore` variable: the maximum keyword
score over the table (0 when no keyword matches). -/
def maxScoreOf (title : String) : Nat :=
  KEYWORD_MAP.foldl (fun a p => max a (score title p.2)) 0

/-! ### Normalization of a raw vendor list (`parseDouyinData`, gemini.ts:233-248) -/

/-- `parseDouyinData` from gemini.ts.  `ratios i` is the estimator's random
draw for the item at index `i` (the source calls `calculateHeatRise` once
per item).  `hotValue` is `item.hot_value || 0`; `rank` is
`item.position && item.position > 0 ? item.position : index + 1` (a falsy —
absent or zero — or non-positive position falls back to the 1-based index);
the category is recomputed by the classifier; the list is truncated with
`.slice(0, 51)`. -/
def parseDouyinData (ratios : Nat → ℚ) (list : List RawItem) : List TrendItem :=
  (list.enum.map (fun p =>
    let hotValue : Int := p.2.hot_value.getD 0
    let rank : Int := if 0 < p.2.position.getD 0 then p.2.position.getD 0 else (p.1 : Int) + 1
    { rank := rank
      title := p.2.word
      hotValue := hotValue
      category := determineCategory p.2.word
      heatRise := calculateHeatRise hotValue (ratios p.1)
      description := "" })).take 51

/-! ### DeepSeek client model (`callDeepSeek`, gemini.ts:16-49)

The outbound HTTP call is embedded as a `DeepSeekOutcome` parameter: the
network either yields a response content string together with an optional
usage object, or fails with an error message.  The prompt strings sent to
the service do not influence the embedded outcome (the service is an
opaque external collaborator), so they are not reproduced here. -/

/-- The `usage` object of a chat-completion response (from `types.ts`,
`AIResponse`). -/
structure Usage where
  total_tokens : Nat
  prompt_tokens : Nat
  completion_tokens : Nat
  deriving DecidableEq, Repr

/-- `AIResponse<T>` from `types.ts`: a payload plus an optional usage
object. -/
structure AIResponse (T : Type) where
  data : T
  usage : Option Usage := none
  deriving DecidableEq, Repr

/-- Outcome of the external chat-completion HTTP exchange: either a
content string (with optional usage counters) or a failure carrying the
thrown error's message. -/
inductive DeepSeekOutcome where
  | success (content : String) (usage : Option Usage)
  | failure (message : String)
  deriving DecidableEq, Repr

/-- `callDeepSeek` from gemini.ts: reads the stored API key; if absent
throws `"MISSING_API_KEY"`, otherwise performs the HTTP call, whose result
is the embedded `net` outcome. -/
def callDeepSeek (apiKey : Option String) (net : DeepSeekOutcome) :
    Except String (String × Option Usage) :=
  match apiKey with
  | none => .error "MISSING_API_KEY"
  | some _ =>
    match net with
    | .success content usage => .ok (content, usage)
    | .failure message => .error message

/-! ### Generative fallback (`fetchSimulatedTrends`, gemini.ts:251-273) -/

/-- One generated trend as parsed from the fallback LLM's JSON (`rank`,
`title`, `hotValue`, `category`, `description`); `fetchSimulatedTrends`
spreads these fields and back-fills `heatRise`. -/
structure SimTrend where
  rank : Int
  title : String
  hotValue : Int
  category : String
  description : String
  deriving DecidableEq, Repr

/-- The fixed two-item error placeholder list returned when the generative
fallback fails (gemini.ts:268-271). -/
def PLACEHOLDER_TRENDS : List TrendItem :=
  [{ rank := 1, title := "获取数据失败 - 请检查网络", hotValue := 0, category := "社会民生",
     heatRise := 0, description := "无法连接到抖音 API 且 DeepSeek 未配置" },
   { rank := 2, title := "DeepSeek API 连接失败", hotValue := 12500000, category := "科技数码",
     heatRise := 890000, description := "请在设置中配置您的 DeepSeek API Key 以启用模拟数据。" }]

/-- `fetchSimulatedTrends` from gemini.ts.  `parseTrends` embeds
`JSON.parse(result.content)` followed by the `parsed.trends || []` read:
`none` means `JSON.parse` threw (caught by the surrounding `try`), and
`some ts` the list read from the parsed object (`[]` when the `trends`
field is missing).  On any caught error — a missing API key, a network
failure or a parse failure — the fixed placeholder list is returned, so
this path never raises. -/
def fetchSimulatedTrends (apiKey : Option String) (net : DeepSeekOutcome)
    (parseTrends : String → Option (List SimTrend)) (ratios : Nat → ℚ) : List TrendItem :=
  match callDeepSeek apiKey net with
  | .error _ => PLACEHOLDER_TRENDS
  | .ok (content, _) =>
    match parseTrends content with
    | none => PLACEHOLDER_TRENDS
    | some ts =>
      ts.enum.map (fun p =>
        { rank := p.2.rank
          title := p.2.title
          hotValue := p.2.hotValue
          category := p.2.category
          heatRise := calculateHeatRise p.2.hotValue (ratios p.1)
          description := p.2.description })

/-! ### Source chain (`fetchTrends`, gemini.ts:191-231) -/

/-- `fetchTrends` from gemini.ts.  `primary`/`backup` embed the two
proxied vendor calls: `some l` is a successful response whose expected
nested `word_list` field holds the raw entries `l`; `none` covers both a
network error and a response lacking the expected field — either way the
code falls through to the next tier.  If both tiers fail the generative
fallback runs. -/
def fetchTrends (primary backup : Option (List RawItem)) (apiKey : Option String)
    (net : DeepSeekOutcome) (parseTrends : String → Option (List SimTrend))
    (ratios : Nat → ℚ) : List TrendItem :=
  match primary with
  | some l => parseDouyinData ratios l
  | none =>
    match backup with
    | some l => parseDouyinData ratios l
    | none => fetchSimulatedTrends apiKey net parseTrends ratios

/-! ### Analysis client (gemini.ts:275-339) -/

/-- The four-dimension gene-map record `GeneMapAnalysis` from `types.ts`
(`TrendAnalysis` and `GlobalAnalysis` are aliases of it).  The four
dimension sub-objects are flattened into label/analysis string pairs. -/
structure GeneMapAnalysis where
  viralityScore : Int
  sentimentLabel : String
  sentimentAnalysis : String
  domainLabel : String
  domainAnalysis : String
  contentFormLabel : String
  contentFormAnalysis : String
  lifecycleLabel : String
  lifecycleAnalysis : String
  keywords : List String
  deriving DecidableEq, Repr

/-- The fixed all-"未知"/zero-score fallback record returned by
`analyzeTrendWithAI` on non-credential failures (gemini.ts:290-299). -/
def FALLBACK_ANALYSIS : GeneMapAnalysis :=
  { viralityScore := 0
    sentimentLabel := "未知", sentimentAnalysis := "分析服务暂不可用"
    domainLabel := "未知", domainAnalysis := "分析服务暂不可用"
    contentFormLabel := "未知", contentFormAnalysis := "分析服务暂不可用"
    lifecycleLabel := "未知", lifecycleAnalysis := "分析服务暂不可用"
    keywords := ["错误", "配置", "API"] }

/-- `analyzeTrendWithAI` from gemini.ts.  `parseContent` embeds
`JSON.parse(result.content) as TrendAnalysis` (`none` = the parse threw
inside the `try`; a JSON syntax error's message is never
`"MISSING_API_KEY"`).  A missing-key error is rethrown; every other caught
error yields the fixed fallback record with no usage object. -/
def analyzeTrendWithAI (apiKey : Option String) (net : DeepSeekOutcome)
    (parseContent : String → Option GeneMapAnalysis) (trendTitle : String) :
    Except String (AIResponse GeneMapAnalysis) :=
  let _ := trendTitle
  match callDeepSeek apiKey net with
  | .ok (content, usage) =>
    match parseContent content with
    | some a => .ok { data := a, usage := usage }
    | none => .ok { data := FALLBACK_ANALYSIS, usage := none }
  | .error e =>
    if e = "MISSING_API_KEY" then .error e
    else .ok { data := FALLBACK_ANALYSIS, usage := none }

/-- `analyzeGlobalTrends` from gemini.ts.  Same call pattern; a
missing-key error is rethrown, every other caught error (network or
parse) is converted into the generic `"Analysis failed"` error — there is
no fallback record on this path. -/
def analyzeGlobalTrends (apiKey : Option String) (net : DeepSeekOutcome)
    (parseContent : String → Option GeneMapAnalysis) (trends : List TrendItem) :
    Except String (AIResponse GeneMapAnalysis) :=
  let _ := trends.take 50
  match callDeepSeek apiKey net with
  | .ok (content, usage) =>
    match parseContent content with
    | some a => .ok { data := a, usage := usage }
    | none => .error "Analysis failed"
  | .error e =>
    if e = "MISSING_API_KEY" then .error e
    else .error "Analysis failed"

/-- `BigEvent` from `types.ts`. -/
structure BigEvent where
  title : String
  reason : String
  durationLabel : String
  deriving DecidableEq, Repr

/-- The parsed payload of `identifyBigEvents`: an object whose `events`
field may be absent (the caller reads it with `|| []`). -/
structure BigEventsData where
  events : Option (List BigEvent)
  deriving DecidableEq, Repr

/-- `identifyBigEvents` from gemini.ts.  A missing-key error is rethrown;
every other caught error yields the empty structure
`{ data: { events: [] } }` — success, not failure. -/
def identifyBigEvents (apiKey : Option String) (net : DeepSeekOutcome)
    (parseContent : String → Option BigEventsData) (trends : List TrendItem) :
    Except String (AIResponse BigEventsData) :=
  let _ := trends.take 50
  match callDeepSeek apiKey net with
  | .ok (content, usage) =>
    match parseContent content with
    | some ev => .ok { data := ev, usage := usage }
    | none => .ok { data := { events := some [] }, usage := none }
  | .error e =>
    if e = "MISSING_API_KEY" then .error e
    else .ok { data := { events := some [] }, usage := none }

/-! ### Aggregate-analysis path (`handleRunGlobalAnalysis`, App component)

`Promise.all` of two already-started independent promises resolves with
both values when both fulfil, and rejects as soon as either rejects; the
embedded join below case-splits on the two `Except` results accordingly.
UI-progress animation and the 600ms display delay are timing-only and not
modelled. -/

/-- `result.usage?.total_tokens || 0`: absent usage counts as zero. -/
def usageTokens (u : Option Usage) : Nat :=
  match u with
  | none => 0
  | some usage => usage.total_tokens

/-- `handleRunGlobalAnalysis` from the App component: guard on an empty
trend list (`if (!trends.length) return`, modelled as `none`), then join
`analyzeGlobalTrends` and `identifyBigEvents`; on double success publish
the analysis, `eventsResult.data.events || []`, and the summed token
usage; if either rejects the whole operation rejects into the caller's
`catch`. -/
def handleRunGlobalAnalysis (apiKey : Option String) (netG netE : DeepSeekOutcome)
    (parseG : String → Option GeneMapAnalysis) (parseE : String → Option BigEventsData)
    (trends : List TrendItem) :
    Option (Except String (GeneMapAnalysis × List BigEvent × Nat)) :=
  if trends.length = 0 then none
  else some (
    match analyzeGlobalTrends apiKey netG parseG trends,
          identifyBigEvents apiKey netE parseE trends with
    | .ok analysisResult, .ok eventsResult =>
      .ok (analysisResult.data, (eventsResult.data.events).getD [],
           usageTokens analysisResult.usage + usageTokens eventsResult.usage)
    | .error e, _ => .error e
    | _, .error e => .error e)

/-! ### Trend refresh (`loadTrends`, App component) -/

/-- The slice of the App component's state that `loadTrends` touches. -/
structure AppState where
  trends : List TrendItem
  loading : Bool
  refreshing : Bool
  deriving DecidableEq, Repr

/-- `loadTrends` from the App component, as a step function.
`fetchOutcome` is the settled result of the awaited `fetchTrends()` call
(`.error` = the promise rejected, handled by the `catch`).  The returned
`Bool` records whether the Source Chain was invoked.  When the in-flight
guard `refreshing` is set the call returns immediately, leaving the state
untouched and invoking nothing; otherwise the flag is raised, the skeleton
flag optionally set, the fetch awaited, and the `finally` block clears
both flags. -/
def loadTrends (s : AppState) (showSkeleton : Bool)
    (fetchOutcome : Except String (List TrendItem)) : AppState × Bool :=
  if s.refreshing then (s, false)
  else
    let _ := showSkeleton
    match fetchOutcome with
    | .ok data => ({ trends := data, loading := false, refreshing := false }, true)
    | .error _ => ({ s with loading := false, refreshing := false }, true)

/-! ### JSON serialization of analysis records

Modelled from the spec: the cache persists a "key → JSON-serialized
GeneMapAnalysis" mapping (spec §3, §4.4); the serializer/deserializer pair
used by the modal component is the platform's `JSON.stringify`/`JSON.parse`,
which is not part of the repository sources.  It is embedded here as an
executable canonical JSON printer for the record shape of
`GeneMapAnalysis` together with a parser of exactly the printed grammar
(escaped strings, decimal integers, a keyword array); any string outside
that grammar parses to `none`, which is how a corrupted cache entry is
detected. -/

/-- Modelled from the spec: JSON string escaping — quote and backslash are
escaped with a backslash, other characters pass through. -/
def escapeChars : List Char → List Char
  | [] => []
  | c :: cs => (if c = '"' || c = '\\' then ['\\', c] else [c]) ++ escapeChars cs

/-- A JSON string literal: quote, escaped body, quote. -/
def encStringChars (s : String) : List Char :=
  '"' :: (escapeChars s.data ++ ['"'])

/-- The decimal digit character for `d < 10`. -/
def digitChar (d : Nat) : Char := Char.ofNat (48 + d)

/-- Fuel-driven most-significant-first decimal printing of a natural. -/
def natCharsAux : Nat → Nat → List Char
  | 0, _ => []
  | fuel + 1, n =>
    if n < 10 then [digitChar n]
    else natCharsAux fuel (n / 10) ++ [digitChar (n % 10)]

/-- Decimal digits of a natural number. -/
def natChars (n : Nat) : List Char := natCharsAux (n + 1) n

/-- Decimal representation of an integer (leading minus when negative). -/
def intChars (i : Int) : List Char :=
  if i < 0 then '-' :: natChars i.natAbs else natChars i.toNat

/-- One label/analysis dimension object of the gene map. -/
def encDimChars (label analysisText : String) : List Char :=
  "\x7b\"label\":".data ++ encStringChars label ++
  ",\"analysis\":".data ++ encStringChars analysisText ++ "\x7d".data

/-- Remaining comma-separated keyword elements, then the closing
bracket. -/
def kwsTailChars : List String → List Char
  | [] => [']']
  | k :: ks => ',' :: (encStringChars k ++ kwsTailChars ks)

/-- The body of the keywords array after the opening bracket. -/
def kwsInnerChars : List String → List Char
  | [] => [']']
  | k :: ks => encStringChars k ++ kwsTailChars ks

/-- Modelled from the spec: the serialized form of a `GeneMapAnalysis`
(the record shape of `types.ts`, keys in declaration order, as
`JSON.stringify` prints it). -/
def analysisChars (a : GeneMapAnalysis) : List Char :=
  "\x7b\"viralityScore\":".data ++ intChars a.viralityScore ++
  ",\"sentiment\":".data ++ encDimChars a.sentimentLabel a.sentimentAnalysis ++
  ",\"domain\":".data ++ encDimChars a.domainLabel a.domainAnalysis ++
  ",\"contentForm\":".data ++ encDimChars a.contentFormLabel a.contentFormAnalysis ++
  ",\"lifecycle\":".data ++ encDimChars a.lifecycleLabel a.lifecycleAnalysis ++
  ",\"keywords\":[".data ++ kwsInnerChars a.keywords ++ "\x7d".data

/-- `JSON.stringify` of an analysis record, as a string. -/
def stringifyAnalysis (a : GeneMapAnalysis) : String :=
  String.mk (analysisChars a)

/-- Consume an expected literal character sequence, or fail. -/
def expectChars : List Char → List Char → Option (List Char)
  | [], l => some l
  | _ :: _, [] => none
  | c :: cs, d :: ds => if c == d then expectChars cs ds else none

/-- Is `c` a decimal digit? -/
def isDigitC (c : Char) : Bool := 48 ≤ c.toNat && c.toNat ≤ 57

/-- Numeric value of a digit character. -/
def digitVal (c : Char) : Nat := c.toNat - 48

/-- Greedily consume digits, accumulating their value. -/
def parseNatAux (acc : Nat) : List Char → Nat × List Char
  | [] => (acc, [])
  | c :: r => if isDigitC c then parseNatAux (acc * 10 + digitVal c) r else (acc, c :: r)

/-- Parse a nonempty digit run as a natural number. -/
def parseNatP : List Char → Option (Nat × List Char)
  | [] => none
  | c :: r => if isDigitC c then some (parseNatAux 0 (c :: r)) else none

/-- Parse an optionally minus-signed decimal integer. -/
def parseIntP : List Char → Option (Int × List Char)
  | [] => none
  | c :: r =>
    if c = '-' then (parseNatP r).map (fun p => (-(p.1 : Int), p.2))
    else (parseNatP (c :: r)).map (fun p => ((p.1 : Int), p.2))

/-- Parse the body of a JSON string literal whose opening quote has been
consumed: stops at the unescaped closing quote, resolves the two escape
sequences the printer emits, fails on a stray backslash or a missing
closing quote. -/
def parseStrChars : List Char → Option (List Char × List Char)
  | [] => none
  | c :: rest =>
    if c = '"' then some ([], rest)
    else if c = '\\' then
      match rest with
      | [] => none
      | d :: rest2 =>
        if d = '"' || d = '\\' then (parseStrChars rest2).map (fun p => (d :: p.1, p.2))
        else none
    else (parseStrChars rest).map (fun p => (c :: p.1, p.2))

/-- Parse a whole JSON string literal, opening quote included. -/
def parseJStringP : List Char → Option (List Char × List Char)
  | '"' :: r => parseStrChars r
  | _ => none

/-- Parse one label/analysis dimension object. -/
def parseDimP (l : List Char) : Option ((String × String) × List Char) := do
  let l ← expectChars "\x7b\"label\":".data l
  let (lab, l) ← parseJStringP l
  let l ← expectChars ",\"analysis\":".data l
  let (ana, l) ← parseJStringP l
  let l ← expectChars "\x7d".data l
  some ((String.mk lab, String.mk ana), l)

/-- Parse the elements of the keywords array after the first element's
opening quote context: either an immediate closing bracket, or comma-quote
separated further strings.  `fuel` bounds the number of elements. -/
def parseKwTail : Nat → List Char → Option (List String × List Char)
  | _, ']' :: r => some ([], r)
  | fuel + 1, ',' :: '"' :: r =>
    (match parseStrChars r with
     | some (cs, r2) => (parseKwTail fuel r2).map (fun p => (String.mk cs :: p.1, p.2))
     | none => none)
  | _, _ => none

/-- Parse the keywords array body after the opening bracket. -/
def parseKwsP (fuel : Nat) : List Char → Option (List String × List Char)
  | ']' :: r => some ([], r)
  | '"' :: r =>
    (match parseStrChars r with
     | some (cs, r2) => (parseKwTail fuel r2).map (fun p => (String.mk cs :: p.1, p.2))
     | none => none)
  | _ => none

/-- Modelled from the spec: `JSON.parse` of a cached entry, specialised to
the canonical printed grammar of `analysisChars`; trailing garbage or any
deviation from the grammar yields `none` (the deserialization-failure
case of spec §4.4). -/
def parseAnalysisChars (l : List Char) : Option GeneMapAnalysis := do
  let l ← expectChars "\x7b\"viralityScore\":".data l
  let (v, l) ← parseIntP l
  let l ← expectChars ",\"sentiment\":".data l
  let (sen, l) ← parseDimP l
  let l ← expectChars ",\"domain\":".data l
  let (dom, l) ← parseDimP l
  let l ← expectChars ",\"contentForm\":".data l
  let (cf, l) ← parseDimP l
  let l ← expectChars ",\"lifecycle\":".data l
  let (lc, l) ← parseDimP l
  let l ← expectChars ",\"keywords\":[".data l
  let (kws, l) ← parseKwsP l.length l
  let l ← expectChars "\x7d".data l
  match l with
  | [] => some { viralityScore := v
                 sentimentLabel := sen.1, sentimentAnalysis := sen.2
                 domainLabel := dom.1, domainAnalysis := dom.2
                 contentFormLabel := cf.1, contentFormAnalysis := cf.2
                 lifecycleLabel := lc.1, lifecycleAnalysis := lc.2
                 keywords := kws }
  | _ => none

/-- `JSON.parse` of a cache entry string. -/
def parseAnalysis (s : String) : Option GeneMapAnalysis :=
  parseAnalysisChars s.data

/-! ### Browser-local key-value store (`localStorage`) and the analysis cache -/

/-- The browser's `localStorage`, as a partial map from keys to strings. -/
def Store : Type := String → Option String

/-- `localStorage.getItem`. -/
def storeGet (s : Store) (k : String) : Option String := s k

/-- `localStorage.setItem` (unconditional overwrite). -/
def storeSet (s : Store) (k v : String) : Store :=
  fun k2 => if k2 = k then some v else s k2

/-- `localStorage.removeItem`. -/
def storeRemove (s : Store) (k : String) : Store :=
  fun k2 => if k2 = k then none else s k2

/-- A store with no entries (first run). -/
def emptyStore : Store := fun _ => none

/-- The cache key `analysis_cache_<title>` used by the analysis modal. -/
def cacheKey (title : String) : String := "analysis_cache_" ++ title

/-- Cache `put` (spec §4.4, modal component): serialize and overwrite
unconditionally under `analysis_cache_<title>`. -/
def cachePut (store : Store) (title : String) (a : GeneMapAnalysis) : Store :=
  storeSet store (cacheKey title) (stringifyAnalysis a)

/-- Cache `get` (spec §4.4, modal component lines 27-36): read the entry;
on a deserialization failure delete the entry and report absent — the
parse error is never propagated.  Returns the reported value and the
store after the call. -/
def cacheGet (store : Store) (title : String) : Option GeneMapAnalysis × Store :=
  match storeGet store (cacheKey title) with
  | none => (none, store)
  | some s =>
    match parseAnalysis s with
    | some a => (some a, store)
    | none => (none, storeRemove store (cacheKey title))

/-! ### The analysis modal effect (`AnalysisModal` component, part_001) -/

/-- What one run of the modal's `useEffect` displays. -/
inductive ModalOutcome where
  | fromCache (a : GeneMapAnalysis)
  | fetched (a : GeneMapAnalysis)
  | missingKey
  | unavailable
  deriving DecidableEq, Repr

/-- The fetch-and-cache branch of the modal effect: call
`analyzeTrendWithAI`; on success display the record and write its
serialization to the cache; a missing-key rejection shows the
configure-key affordance, any other rejection a generic notice.  The
returned `Bool` records that the external service was contacted. -/
def modalFetch (store : Store) (title : String) (apiKey : Option String)
    (net : DeepSeekOutcome) (parseContent : String → Option GeneMapAnalysis) :
    ModalOutcome × Store × Bool :=
  match analyzeTrendWithAI apiKey net parseContent title with
  | .ok response =>
    (.fetched response.data,
     storeSet store (cacheKey title) (stringifyAnalysis response.data), true)
  | .error e =>
    if e = "MISSING_API_KEY" then (.missingKey, store, true)
    else (.unavailable, store, true)

/-- One run of the modal's `useEffect` for a trend title: try the cache
first (a parseable entry is authoritative and ends the run without any
external call; a corrupt entry is deleted), otherwise fetch and cache. -/
def analysisModalStep (store : Store) (title : String) (apiKey : Option String)
    (net : DeepSeekOutcome) (parseContent : String → Option GeneMapAnalysis) :
    ModalOutcome × Store × Bool :=
  match storeGet store (cacheKey title) with
  | some cached =>
    match parseAnalysis cached with
    | some a => (.fromCache a, store, false)
    | none => modalFetch (storeRemove store (cacheKey title)) title apiKey net parseContent
  | none => modalFetch store title apiKey net parseContent

/-! ## Theorems -/

/-- C6 counterexample: the claimed interval `[0, ceil(0.08*totalHeat))` is
empty at `totalHeat = 0`, yet the estimator (with the in-range ratio
`1/20`) returns `0` there, so the claimed membership fails. -/
theorem C6_counterexample :
    ¬ (calculateHeatRise 0 (1/20) < ⌈(2/25 : ℚ) * ((0 : Int) : ℚ)⌉) := by
  norm_num [calculateHeatRise]

/-- C6 (amended): for every non-negative `totalHeat` and every per-call
ratio `r` in `[1/100, 2/25)`, `calculateHeatRise` returns
`floor(totalHeat * r)`, which is non-negative; for positive `totalHeat`
the result lies in `[0, ceil(2/25 * totalHeat))`, and at `totalHeat = 0`
the result is `0`. -/
theorem C6_calculateHeatRise_spec (v : Int) (r : ℚ) (hv : 0 ≤ v)
    (h1 : 1/100 ≤ r) (h2 : r < 2/25) :
    calculateHeatRise v r = ⌊(v : ℚ) * r⌋ ∧
    0 ≤ calculateHeatRise v r ∧
    (0 < v → calculateHeatRise v r < ⌈(2/25 : ℚ) * (v : ℚ)⌉) ∧
    (v = 0 → calculateHeatRise v r = 0) := by
  have hr0 : (0 : ℚ) ≤ r := le_trans (by norm_num) h1
  refine ⟨rfl, ?_, ?_, ?_⟩
  · exact Int.floor_nonneg.mpr (mul_nonneg (by exact_mod_cast hv) hr0)
  · intro hv0
    have hvq : (0 : ℚ) < (v : ℚ) := by exact_mod_cast hv0
    have hlt : (v : ℚ) * r < (2/25 : ℚ) * (v : ℚ) := by
      calc (v : ℚ) * r < (v : ℚ) * (2/25) := by
            exact mul_lt_mul_of_pos_left h2 hvq
        _ = (2/25 : ℚ) * (v : ℚ) := mul_comm _ _
    have h3 : ((calculateHeatRise v r : Int) : ℚ) < ((⌈(2/25 : ℚ) * (v : ℚ)⌉ : Int) : ℚ) :=
      lt_of_le_of_lt (Int.floor_le _) (lt_of_lt_of_le hlt (Int.le_ceil _))
    exact_mod_cast h3
  · intro h0
    subst h0
    simp [calculateHeatRise]

/-- C6 witness: the amended theorem applied at `totalHeat = 5000000`,
`r = 1/20`. -/
theorem C6_witness :
    ((0 : Int) ≤ 5000000 ∧ (1/100 : ℚ) ≤ 1/20 ∧ (1/20 : ℚ) < 2/25) ∧
    (calculateHeatRise 5000000 (1/20) = ⌊((5000000 : Int) : ℚ) * (1/20)⌋ ∧
     0 ≤ calculateHeatRise 5000000 (1/20) ∧
     (0 < (5000000 : Int) →
       calculateHeatRise 5000000 (1/20) < ⌈(2/25 : ℚ) * ((5000000 : Int) : ℚ)⌉) ∧
     ((5000000 : Int) = 0 → calculateHeatRise 5000000 (1/20) = 0)) :=
  ⟨⟨by norm_num, by norm_num, by norm_num⟩,
   C6_calculateHeatRise_spec 5000000 (1/20) (by norm_num) (by norm_num) (by norm_num)⟩

/-- C9: when the in-flight `refreshing` guard is set, `loadTrends` returns
immediately: the state (trend list, loading flag, guard) is unchanged and
the Source Chain is not invoked (second component `false`), so at most one
refresh is ever running. -/
theorem C9_loadTrends_guard (s : AppState) (showSkeleton : Bool)
    (fetchOutcome : Except String (List TrendItem)) (h : s.refreshing = true) :
    loadTrends s showSkeleton fetchOutcome = (s, false) := by
  simp [loadTrends, h]

/-- C9 witness: the guard theorem applied to a concrete in-flight state. -/
theorem C9_witness :
    (AppState.mk PLACEHOLDER_TRENDS false true).refreshing = true ∧
    loadTrends (AppState.mk PLACEHOLDER_TRENDS false true) true (.ok []) =
      (AppState.mk PLACEHOLDER_TRENDS false true, false) :=
  ⟨rfl, C9_loadTrends_guard (AppState.mk PLACEHOLDER_TRENDS false true) true (.ok []) rfl⟩

/-- C3: when the primary and backup sources both fail and the generative
fallback also fails — the external call raising (in particular with a
missing API credential) or its content failing to parse — `fetchTrends`
returns exactly the fixed two-item placeholder list (rank 1 the
network-failure notice with zero hot value and zero heat rise, rank 2 the
missing-credential notice), and this path returns normally. -/
theorem C3_fetchTrends_placeholder (apiKey : Option String) (net : DeepSeekOutcome)
    (parseTrends : String → Option (List SimTrend)) (ratios : Nat → ℚ)
    (hfail : (∃ e, callDeepSeek apiKey net = .error e) ∨
             (∃ c u, callDeepSeek apiKey net = .ok (c, u) ∧ parseTrends c = none)) :
    fetchTrends none none apiKey net parseTrends ratios = PLACEHOLDER_TRENDS ∧
    fetchTrends none none apiKey net parseTrends ratios =
      [{ rank := 1, title := "获取数据失败 - 请检查网络", hotValue := 0, category := "社会民生",
         heatRise := 0, description := "无法连接到抖音 API 且 DeepSeek 未配置" },
       { rank := 2, title := "DeepSeek API 连接失败", hotValue := 12500000,
         category := "科技数码", heatRise := 890000,
         description := "请在设置中配置您的 DeepSeek API Key 以启用模拟数据。" }] := by
  have hmain : fetchTrends none none apiKey net parseTrends ratios = PLACEHOLDER_TRENDS := by
    rcases hfail with ⟨e, he⟩ | ⟨c, u, hok, hp⟩
    · simp [fetchTrends, fetchSimulatedTrends, he]
    · simp [fetchTrends, fetchSimulatedTrends, hok, hp]
  exact ⟨hmain, hmain⟩

/-- C3 witness: both vendor tiers down and no API credential configured. -/
theorem C3_witness :
    ((∃ e, callDeepSeek none (.failure "offline") = .error e) ∨
     (∃ c u, callDeepSeek none (.failure "offline") = .ok (c, u) ∧
             (fun _ : String => (none : Option (List SimTrend))) c = none)) ∧
    fetchTrends none none none (.failure "offline")
      (fun _ => (none : Option (List SimTrend))) (fun _ => 1/20) = PLACEHOLDER_TRENDS :=
  ⟨Or.inl ⟨"MISSING_API_KEY", rfl⟩,
   (C3_fetchTrends_placeholder none (.failure "offline")
     (fun _ => (none : Option (List SimTrend))) (fun _ => 1/20)
     (Or.inl ⟨"MISSING_API_KEY", rfl⟩)).1⟩

/-- C4: the asymmetric failure policies of the three analysis operations.
With no credential all three raise `MISSING_API_KEY`.  On any other
failure — a network failure with a message other than `MISSING_API_KEY`,
or unparseable response content — `analyzeTrendWithAI` returns the fixed
all-未知/zero-score record (with no usage object) instead of raising,
`analyzeGlobalTrends` raises the generic `Analysis failed` error, and
`identifyBigEvents` returns the empty event structure successfully. -/
theorem C4_analysis_failure_policies (k : String) (net : DeepSeekOutcome)
    (parseA parseG : String → Option GeneMapAnalysis)
    (parseE : String → Option BigEventsData) (title : String) (trends : List TrendItem) :
    (analyzeTrendWithAI none net parseA title = .error "MISSING_API_KEY" ∧
     analyzeGlobalTrends none net parseG trends = .error "MISSING_API_KEY" ∧
     identifyBigEvents none net parseE trends = .error "MISSING_API_KEY") ∧
    (∀ msg, msg ≠ "MISSING_API_KEY" →
      analyzeTrendWithAI (some k) (.failure msg) parseA title =
        .ok { data := FALLBACK_ANALYSIS, usage := none } ∧
      analyzeGlobalTrends (some k) (.failure msg) parseG trends = .error "Analysis failed" ∧
      identifyBigEvents (some k) (.failure msg) parseE trends =
        .ok { data := { events := some [] }, usage := none }) ∧
    (∀ content usage, parseA content = none →
      analyzeTrendWithAI (some k) (.success content usage) parseA title =
        .ok { data := FALLBACK_ANALYSIS, usage := none }) ∧
    (∀ content usage, parseG content = none →
      analyzeGlobalTrends (some k) (.success content usage) parseG trends =
        .error "Analysis failed") ∧
    (∀ content usage, parseE content = none →
      identifyBigEvents (some k) (.success content usage) parseE trends =
        .ok { data := { events := some [] }, usage := none }) := by
  refine ⟨⟨?_, ?_, ?_⟩, ?_, ?_, ?_, ?_⟩
  · simp [analyzeTrendWithAI, callDeepSeek]
  · simp [analyzeGlobalTrends, callDeepSeek]
  · simp [identifyBigEvents, callDeepSeek]
  · intro msg hmsg
    refine ⟨?_, ?_, ?_⟩
    · simp [analyzeTrendWithAI, callDeepSeek, hmsg]
    · simp [analyzeGlobalTrends, callDeepSeek, hmsg]
    · simp [identifyBigEvents, callDeepSeek, hmsg]
  · intro content usage hp
    simp [analyzeTrendWithAI, callDeepSeek, hp]
  · intro content usage hp
    simp [analyzeGlobalTrends, callDeepSeek, hp]
  · intro content usage hp
    simp [identifyBigEvents, callDeepSeek, hp]

/-- C4 witness: the policy theorem applied at a concrete non-credential
failure message and a concrete unparseable response. -/
theorem C4_witness :
    ("boom" ≠ "MISSING_API_KEY") ∧
    ((fun _ : String => (none : Option GeneMapAnalysis)) "c" = none) ∧
    (analyzeTrendWithAI (some "sk") (.failure "boom")
        (fun _ => (none : Option GeneMapAnalysis)) "t" =
      .ok { data := FALLBACK_ANALYSIS, usage := none }) ∧
    (analyzeGlobalTrends (some "sk") (.failure "boom")
        (fun _ => (none : Option GeneMapAnalysis)) [] = .error "Analysis failed") ∧
    (identifyBigEvents (some "sk") (.failure "boom")
        (fun _ => (none : Option BigEventsData)) [] =
      .ok { data := { events := some [] }, usage := none }) ∧
    (analyzeTrendWithAI (some "sk") (.success "c" none)
        (fun _ => (none : Option GeneMapAnalysis)) "t" =
      .ok { data := FALLBACK_ANALYSIS, usage := none }) := by
  have h := C4_analysis_failure_policies "sk" (.failure "boom")
    (fun _ => (none : Option GeneMapAnalysis)) (fun _ => (none : Option GeneMapAnalysis))
    (fun _ => (none : Option BigEventsData)) "t" []
  have h2 := C4_analysis_failure_policies "sk" (.success "c" none)
    (fun _ => (none : Option GeneMapAnalysis)) (fun _ => (none : Option GeneMapAnalysis))
    (fun _ => (none : Option BigEventsData)) "t" []
  refine ⟨by decide, rfl, (h.2.1 "boom" (by decide)).1, (h.2.1 "boom" (by decide)).2.1,
    (h.2.1 "boom" (by decide)).2.2, h2.2.2.1 "c" none rfl⟩

/-- C7: the aggregate path joins `analyzeGlobalTrends` and
`identifyBigEvents`.  When both succeed the published token usage is the
sum of the two `total_tokens` counters (an absent usage object counting as
zero) and neither result is dropped; if either of the joined calls
rejects, the whole aggregate operation rejects. -/
theorem C7_aggregate_join (apiKey : Option String) (netG netE : DeepSeekOutcome)
    (parseG : String → Option GeneMapAnalysis) (parseE : String → Option BigEventsData)
    (trends : List TrendItem) (hne : trends ≠ []) :
    (∀ a b, analyzeGlobalTrends apiKey netG parseG trends = .ok a →
      identifyBigEvents apiKey netE parseE trends = .ok b →
      handleRunGlobalAnalysis apiKey netG netE parseG parseE trends =
        some (.ok (a.data, (b.data.events).getD [],
                   usageTokens a.usage + usageTokens b.usage))) ∧
    (∀ e, analyzeGlobalTrends apiKey netG parseG trends = .error e →
      handleRunGlobalAnalysis apiKey netG netE parseG parseE trends = some (.error e)) ∧
    (∀ e, identifyBigEvents apiKey netE parseE trends = .error e →
      ∃ e2, handleRunGlobalAnalysis apiKey netG netE parseG parseE trends =
        some (.error e2)) := by
  have hlen : ¬ trends.length = 0 := by
    simpa [List.length_eq_zero] using hne
  refine ⟨?_, ?_, ?_⟩
  · intro a b ha hb
    simp [handleRunGlobalAnalysis, hlen, ha, hb]
  · intro e he
    cases hb : identifyBigEvents apiKey netE parseE trends with
    | ok b => simp [handleRunGlobalAnalysis, hlen, he, hb]
    | error e2 => simp [handleRunGlobalAnalysis, hlen, he, hb]
  · intro e he
    cases ha : analyzeGlobalTrends apiKey netG parseG trends with
    | ok a => exact ⟨e, by simp [handleRunGlobalAnalysis, hlen, ha, he]⟩
    | error e2 => exact ⟨e2, by simp [handleRunGlobalAnalysis, hlen, ha, he]⟩

/-- C7 witness: a double success with usages 5 and 7 publishes the sum 12,
applied through the join theorem at concrete outcomes. -/
theorem C7_witness :
    (PLACEHOLDER_TRENDS ≠ []) ∧
    analyzeGlobalTrends (some "sk") (.success "g" (some ⟨5, 2, 3⟩))
      (fun _ => some FALLBACK_ANALYSIS) PLACEHOLDER_TRENDS =
      .ok { data := FALLBACK_ANALYSIS, usage := some ⟨5, 2, 3⟩ } ∧
    identifyBigEvents (some "sk") (.success "e" (some ⟨7, 3, 4⟩))
      (fun _ => some { events := some [] }) PLACEHOLDER_TRENDS =
      .ok { data := { events := some [] }, usage := some ⟨7, 3, 4⟩ } ∧
    handleRunGlobalAnalysis (some "sk") (.success "g" (some ⟨5, 2, 3⟩))
      (.success "e" (some ⟨7, 3, 4⟩)) (fun _ => some FALLBACK_ANALYSIS)
      (fun _ => some { events := some [] }) PLACEHOLDER_TRENDS =
      some (.ok (FALLBACK_ANALYSIS, [], 12)) := by
  refine ⟨by decide, rfl, rfl, ?_⟩
  exact (C7_aggregate_join (some "sk") (.success "g" (some ⟨5, 2, 3⟩))
    (.success "e" (some ⟨7, 3, 4⟩)) (fun _ => some FALLBACK_ANALYSIS)
    (fun _ => some { events := some [] }) PLACEHOLDER_TRENDS (by decide)).1
    { data := FALLBACK_ANALYSIS, usage := some ⟨5, 2, 3⟩ }
    { data := { events := some [] }, usage := some ⟨7, 3, 4⟩ } rfl rfl

/-- C8 counterexample: the generative-fallback tier does not truncate.
With both vendor tiers down, a configured key and the fallback LLM
returning 52 generated trends, `fetchTrends` returns all 52 items,
refuting the claimed universal bound of 51. -/
theorem C8_counterexample :
    ¬ ((fetchTrends none none (some "sk") (.success "c" none)
        (fun _ => some (List.replicate 52 ⟨1, "t", 0, "c", ""⟩))
        (fun _ => 1/20)).length ≤ 51) := by
  simp [fetchTrends, fetchSimulatedTrends, callDeepSeek]

/-- C8 (amended): the primary, backup and placeholder tiers of
`fetchTrends` return at most 51 items (the placeholder exactly 2), but
the generative-fallback tier returns exactly as many items as the
external service generated, with no truncation — so its length is bounded
by 51 only when the service returns at most 51 items. -/
theorem C8_fetchTrends_length (primary backup : Option (List RawItem))
    (apiKey : Option String) (net : DeepSeekOutcome)
    (parseTrends : String → Option (List SimTrend)) (ratios : Nat → ℚ) :
    (∀ l, primary = some l →
      (fetchTrends primary backup apiKey net parseTrends ratios).length ≤ 51) ∧
    (primary = none → ∀ l, backup = some l →
      (fetchTrends primary backup apiKey net parseTrends ratios).length ≤ 51) ∧
    (primary = none → backup = none →
      ((∃ e, callDeepSeek apiKey net = .error e) ∨
       (∃ c u, callDeepSeek apiKey net = .ok (c, u) ∧ parseTrends c = none)) →
      (fetchTrends primary backup apiKey net parseTrends ratios).length = 2) ∧
    (primary = none → backup = none →
      ∀ c u ts, callDeepSeek apiKey net = .ok (c, u) → parseTrends c = some ts →
      (fetchTrends primary backup apiKey net parseTrends ratios).length = ts.length) := by
  refine ⟨?_, ?_, ?_, ?_⟩
  · rintro l rfl
    simp [fetchTrends, parseDouyinData, List.length_take]
  · rintro rfl l rfl
    simp [fetchTrends, parseDouyinData, List.length_take]
  · rintro rfl rfl hfail
    rcases hfail with ⟨e, he⟩ | ⟨c, u, hok, hp⟩
    · simp [fetchTrends, fetchSimulatedTrends, he]
      rfl
    · simp [fetchTrends, fetchSimulatedTrends, hok, hp]
      rfl
  · rintro rfl rfl c u ts hok hp
    simp [fetchTrends, fetchSimulatedTrends, hok, hp]

/-- C8 witness: the amended bound applied at a concrete primary-tier
success with one raw entry, and at a concrete fallback failure. -/
theorem C8_witness :
    ((some [RawItem.mk "测试" (some 100) (some 1)] : Option (List RawItem)) =
      some [RawItem.mk "测试" (some 100) (some 1)]) ∧
    (fetchTrends (some [RawItem.mk "测试" (some 100) (some 1)]) none none
      (.failure "offline") (fun _ => none) (fun _ => 1/20)).length ≤ 51 := by
  refine ⟨rfl, ?_⟩
  exact (C8_fetchTrends_length (some [RawItem.mk "测试" (some 100) (some 1)]) none none
    (.failure "offline") (fun _ => none) (fun _ => 1/20)).1
    [RawItem.mk "测试" (some 100) (some 1)] rfl

/-- The best-category component of the classifier fold is either the
initial default or the key of some table entry. -/
theorem foldl_catStep_snd_mem (title : String) :
    ∀ (L : List (String × List String)) (m : Nat) (b : String),
      (L.foldl (catStep title) (m, b)).2 = b ∨
      (L.foldl (catStep title) (m, b)).2 ∈ L.map Prod.fst := by
  intro L
  induction L with
  | nil => intro m b; left; rfl
  | cons p L ih =>
    intro m b
    simp only [List.foldl_cons, List.map_cons]
    by_cases h : score title p.2 > m
    · have hc : catStep title (m, b) p = (score title p.2, p.1) := by
        simp [catStep, h]
      rw [hc]
      rcases ih (score title p.2) p.1 with h1 | h1
      · right; simp [h1]
      · right; simp [h1]
    · have hc : catStep title (m, b) p = (m, b) := by
        simp [catStep, h]
      rw [hc]
      rcases ih m b with h1 | h1
      · left; exact h1
      · right; simp [h1]

/-- Every classifier output is one of the fixed enumerated categories. -/
theorem determineCategory_mem (title : String) : determineCategory title ∈ CATEGORIES := by
  rcases foldl_catStep_snd_mem title KEYWORD_MAP 0 "社会民生" with h | h
  · rw [determineCategory, h]
    decide
  · have hsub : ∀ x ∈ KEYWORD_MAP.map Prod.fst, x ∈ CATEGORIES := by decide
    exact hsub _ h

/-- C1: normalization of a well-formed primary (or backup) raw list.
With every raw `hot_value` non-negative and every per-item estimator draw
in `[1/100, 2/25)`, `parseDouyinData` on `N ≥ 1` entries yields exactly
`min(N, 51)` items; every item's category belongs to the fixed enumerated
set, its heat rise is non-negative, its rank is the entry's own `position`
when that is present and positive and the 1-based list index otherwise,
and its title is the entry's `word`. -/
theorem C1_parseDouyinData_spec (ratios : Nat → ℚ) (list : List RawItem)
    (hN : 1 ≤ list.length)
    (hwf : ∀ r ∈ list, 0 ≤ r.hot_value.getD 0)
    (hr : ∀ i, 1/100 ≤ ratios i ∧ ratios i < 2/25) :
    (parseDouyinData ratios list).length = min list.length 51 ∧
    ∀ i (h1 : i < (parseDouyinData ratios list).length) (h2 : i < list.length),
      (parseDouyinData ratios list)[i].category ∈ CATEGORIES ∧
      0 ≤ (parseDouyinData ratios list)[i].heatRise ∧
      (parseDouyinData ratios list)[i].rank =
        (if 0 < (list[i].position.getD 0) then list[i].position.getD 0 else (i : Int) + 1) ∧
      (parseDouyinData ratios list)[i].title = list[i].word := by
  have _ := hN
  constructor
  · simp [parseDouyinData, List.length_take, Nat.min_comm]
  · intro i h1 h2
    have hEq : (parseDouyinData ratios list)[i] =
        { rank := if 0 < (list[i].position.getD 0) then list[i].position.getD 0
                  else (i : Int) + 1
          title := list[i].word
          hotValue := list[i].hot_value.getD 0
          category := determineCategory list[i].word
          heatRise := calculateHeatRise (list[i].hot_value.getD 0) (ratios i)
          description := "" } := by
      simp [parseDouyinData, List.getElem_take, List.getElem_map, List.getElem_enum]
    rw [hEq]
    refine ⟨determineCategory_mem _, ?_, rfl, rfl⟩
    have hhot : (0 : Int) ≤ list[i].hot_value.getD 0 := hwf _ (list.getElem_mem h2)
    have hr0 : (0 : ℚ) ≤ ratios i := le_trans (by norm_num) (hr i).1
    exact Int.floor_nonneg.mpr (mul_nonneg (by exact_mod_cast hhot) hr0)

/-- C1 witness: the spec theorem applied to the spec's own end-to-end
example entry (word 测试话题后续, hot value 5000000, position 3) preceded
by a position-less entry, with the constant draw `1/20`. -/
theorem C1_witness :
    (1 ≤ ([RawItem.mk "新剧开播" (some 100) none,
           RawItem.mk "测试话题后续" (some 5000000) (some 3)] : List RawItem).length) ∧
    (∀ r ∈ ([RawItem.mk "新剧开播" (some 100) none,
             RawItem.mk "测试话题后续" (some 5000000) (some 3)] : List RawItem),
       0 ≤ r.hot_value.getD 0) ∧
    (∀ i : Nat, (1/100 : ℚ) ≤ (fun _ => (1/20 : ℚ)) i ∧ ((fun _ => (1/20 : ℚ)) i) < 2/25) ∧
    (parseDouyinData (fun _ => 1/20)
        [RawItem.mk "新剧开播" (some 100) none,
         RawItem.mk "测试话题后续" (some 5000000) (some 3)]).length =
      min ([RawItem.mk "新剧开播" (some 100) none,
            RawItem.mk "测试话题后续" (some 5000000) (some 3)] : List RawItem).length 51 := by
  refine ⟨by decide, by decide, fun i => ⟨by norm_num, by norm_num⟩, ?_⟩
  exact (C1_parseDouyinData_spec (fun _ => 1/20)
    [RawItem.mk "新剧开播" (some 100) none,
     RawItem.mk "测试话题后续" (some 5000000) (some 3)]
    (by decide) (by decide) (fun i => ⟨by norm_num, by norm_num⟩)).1

/-- The running-maximum component of the classifier fold is the fold of
`max` over the scores. -/
theorem foldl_catStep_fst (title : String) :
    ∀ (L : List (String × List String)) (m : Nat) (b : String),
      (L.foldl (catStep title) (m, b)).1 =
        L.foldl (fun a p => max a (score title p.2)) m := by
  intro L
  induction L with
  | nil => intro m b; rfl
  | cons p L ih =>
    intro m b
    simp only [List.foldl_cons]
    by_cases h : score title p.2 > m
    · have hc : catStep title (m, b) p = (score title p.2, p.1) := by simp [catStep, h]
      have hm : max m (score title p.2) = score title p.2 := by omega
      rw [hc, hm, ih]
    · have hc : catStep title (m, b) p = (m, b) := by simp [catStep, h]
      have hm : max m (score title p.2) = m := by omega
      rw [hc, hm, ih]

/-- The seed is a lower bound of the max-fold. -/
theorem le_foldl_max (title : String) :
    ∀ (L : List (String × List String)) (m : Nat),
      m ≤ L.foldl (fun a p => max a (score title p.2)) m := by
  intro L
  induction L with
  | nil => intro m; exact le_refl m
  | cons p L ih =>
    intro m
    simp only [List.foldl_cons]
    exact le_trans (le_max_left m (score title p.2)) (ih (max m (score title p.2)))

/-- An upper bound of the seed and all scores bounds the max-fold. -/
theorem foldl_max_le (title : String) :
    ∀ (L : List (String × List String)) (m c : Nat), m ≤ c →
      (∀ p ∈ L, score title p.2 ≤ c) →
      L.foldl (fun a p => max a (score title p.2)) m ≤ c := by
  intro L
  induction L with
  | nil => intro m c hm _; exact hm
  | cons p L ih =>
    intro m c hm hall
    simp only [List.foldl_cons]
    refine ih _ c ?_ (fun q hq => hall q (List.mem_cons_of_mem p hq))
    exact max_le hm (hall p (List.mem_cons_self p L))

/-- Each member's score is bounded by the max-fold. -/
theorem score_le_foldl_max (title : String) :
    ∀ (L : List (String × List String)) (m : Nat) (p : String × List String), p ∈ L →
      score title p.2 ≤ L.foldl (fun a p => max a (score title p.2)) m := by
  intro L
  induction L with
  | nil => intro m p hp; cases hp
  | cons r L ih =>
    intro m p hp
    simp only [List.foldl_cons]
    rcases List.mem_cons.mp hp with rfl | hp
    · exact le_trans (le_max_right m (score title p.2))
        (le_foldl_max title L (max m (score title p.2)))
    · exact ih _ p hp

/-- When the max-fold moves past its seed, some member attains it. -/
theorem foldl_max_attained (title : String) :
    ∀ (L : List (String × List String)) (m : Nat),
      L.foldl (fun a p => max a (score title p.2)) m ≠ m →
      ∃ q ∈ L, score title q.2 = L.foldl (fun a p => max a (score title p.2)) m := by
  intro L
  induction L with
  | nil => intro m h; exact absurd rfl h
  | cons p L ih =>
    intro m h
    simp only [List.foldl_cons] at h ⊢
    by_cases hM : L.foldl (fun a p => max a (score title p.2)) (max m (score title p.2)) =
        max m (score title p.2)
    · rw [hM] at h ⊢
      have hs : max m (score title p.2) = score title p.2 := by omega
      exact ⟨p, List.mem_cons_self p L, hs.symm⟩
    · obtain ⟨q, hq, hqs⟩ := ih (max m (score title p.2)) hM
      exact ⟨q, List.mem_cons_of_mem p hq, hqs⟩

/-- Full characterization of the best-category component of the fold:
unchanged when no score exceeds the seed, otherwise the first entry
attaining the overall maximum. -/
theorem foldl_catStep_snd (title : String) :
    ∀ (L : List (String × List String)) (m : Nat) (b : String),
      (L.foldl (catStep title) (m, b)).2 =
        (if L.foldl (fun a p => max a (score title p.2)) m = m then b
         else ((L.find? (fun p =>
             score title p.2 == L.foldl (fun a p => max a (score title p.2)) m)).map
           Prod.fst).getD b) := by
  intro L
  induction L with
  | nil => intro m b; simp
  | cons p L ih =>
    intro m b
    simp only [List.foldl_cons]
    by_cases h : score title p.2 > m
    · have hc : catStep title (m, b) p = (score title p.2, p.1) := by simp [catStep, h]
      have hm : max m (score title p.2) = score title p.2 := by omega
      rw [hc, hm]
      have hMgt : m < L.foldl (fun a p => max a (score title p.2)) (score title p.2) :=
        lt_of_lt_of_le h (le_foldl_max title L _)
      rw [if_neg (by omega)]
      by_cases hM : L.foldl (fun a p => max a (score title p.2)) (score title p.2) =
          score title p.2
      · rw [ih, if_pos hM]
        have hfind : List.find? (fun q =>
            score title q.2 == L.foldl (fun a p => max a (score title p.2)) (score title p.2))
            (p :: L) = some p := by
          rw [List.find?_cons_of_pos _ (by simp [hM])]
        rw [hfind]
        rfl
      · rw [ih, if_neg hM]
        obtain ⟨q, hq, hqs⟩ := foldl_max_attained title L _ hM
        have hfq : (List.find? (fun q =>
            score title q.2 == L.foldl (fun a p => max a (score title p.2)) (score title p.2))
            L).isSome := by
          rw [List.find?_isSome]
          exact ⟨q, hq, by simp [hqs]⟩
        obtain ⟨r, hr⟩ := Option.isSome_iff_exists.mp hfq
        have hps : (score title p.2 ==
            L.foldl (fun a p => max a (score title p.2)) (score title p.2)) = false := by
          simp only [beq_eq_false_iff_ne, ne_eq]
          omega
        simp only [List.find?_cons, hps, cond_false, hr]
        rfl
    · have hc : catStep title (m, b) p = (m, b) := by simp [catStep, h]
      have hm : max m (score title p.2) = m := by omega
      rw [hc, hm, ih]
      by_cases hM : L.foldl (fun a p => max a (score title p.2)) m = m
      · rw [if_pos hM, if_pos hM]
      · rw [if_neg hM, if_neg hM]
        have hMgt : m < L.foldl (fun a p => max a (score title p.2)) m := by
          have := le_foldl_max title L m
          omega
        have hps : (score title p.2 ==
            L.foldl (fun a p => max a (score title p.2)) m) = false := by
          simp only [beq_eq_false_iff_ne, ne_eq]
          omega
        simp only [List.find?_cons, hps, cond_false]

/-- In a list with your score positive and every differently-keyed entry
scoring zero, the first max-score entry is you. -/
theorem find_unique_positive (title : String) :
    ∀ (L : List (String × List String)) (p : String × List String), p ∈ L →
      (∀ q ∈ L, q ≠ p → score title q.2 = 0) → 0 < score title p.2 →
      L.find? (fun q => score title q.2 == score title p.2) = some p := by
  intro L
  induction L with
  | nil => intro p hp; cases hp
  | cons r L ih =>
    intro p hp hz hpos
    by_cases hrp : r = p
    · subst hrp
      exact List.find?_cons_of_pos _ (by simp)
    · have hr0 : score title r.2 = 0 := hz r (List.mem_cons_self r L) hrp
      have hne : (score title r.2 == score title p.2) = false := by
        simp only [beq_eq_false_iff_ne, ne_eq]
        omega
      simp only [List.find?_cons, hne, cond_false]
      have hpL : p ∈ L := by
        rcases List.mem_cons.mp hp with h | h
        · exact absurd h.symm hrp
        · exact h
      exact ih p hpL (fun q hq hqp => hz q (List.mem_cons_of_mem r hq) hqp) hpos

/-- C2: the classifier is a total function of the title alone, computed
as: score each category by the number of its keywords occurring as
substrings of the title; the result is the first table entry attaining
the (positive) maximum score — ties go to the earlier entry in iteration
order — and the fixed default 社会民生 when every score is zero.
Consequently a title scoring positively in exactly one category and zero
in every other is classified into that category. -/
theorem C2_determineCategory_spec (title : String) :
    (determineCategory title =
      (if maxScoreOf title = 0 then "社会民生"
       else ((KEYWORD_MAP.find? (fun p => score title p.2 == maxScoreOf title)).map
         Prod.fst).getD "社会民生")) ∧
    ((∀ p ∈ KEYWORD_MAP, score title p.2 = 0) → determineCategory title = "社会民生") ∧
    (∀ p ∈ KEYWORD_MAP, 0 < score title p.2 →
      (∀ q ∈ KEYWORD_MAP, q.1 ≠ p.1 → score title q.2 = 0) →
      determineCategory title = p.1) := by
  have hchar := foldl_catStep_snd title KEYWORD_MAP 0 "社会民生"
  have hM : maxScoreOf title = KEYWORD_MAP.foldl (fun a p => max a (score title p.2)) 0 := rfl
  refine ⟨?_, ?_, ?_⟩
  · rw [determineCategory, hchar, hM]
  · intro hall
    have hz : KEYWORD_MAP.foldl (fun a p => max a (score title p.2)) 0 = 0 :=
      Nat.le_antisymm (foldl_max_le title KEYWORD_MAP 0 0 (le_refl 0)
        (fun p hp => le_of_eq (hall p hp))) (Nat.zero_le _)
    rw [determineCategory, hchar, if_pos hz]
  · intro p hp hpos hz
    have hkeys : ∀ x ∈ KEYWORD_MAP, ∀ y ∈ KEYWORD_MAP, x.1 = y.1 → x = y := by decide
    have hz' : ∀ q ∈ KEYWORD_MAP, q ≠ p → score title q.2 = 0 := by
      intro q hq hqp
      refine hz q hq ?_
      intro hq1
      exact hqp (hkeys q hq p hp hq1)
    have hMs : KEYWORD_MAP.foldl (fun a p => max a (score title p.2)) 0 = score title p.2 := by
      have hub : KEYWORD_MAP.foldl (fun a q => max a (score title q.2)) 0 ≤ score title p.2 := by
        refine foldl_max_le title KEYWORD_MAP 0 (score title p.2) (Nat.zero_le _) ?_
        intro q hq
        by_cases hqp : q = p
        · subst hqp; exact le_refl _
        · rw [hz' q hq hqp]; exact Nat.zero_le _
      have hlb := score_le_foldl_max title KEYWORD_MAP 0 p hp
      omega
    rw [determineCategory, hchar, hMs, if_neg (by omega),
      find_unique_positive title KEYWORD_MAP p hp hz' hpos]
    rfl

/-- C2 witness: the title 手机 contains only 科技数码 keywords (the single
keyword 手机) and is classified 科技数码 by the unique-category clause. -/
theorem C2_witness :
    (("科技数码", ["AI", "人工智能", "手机", "苹果", "华为", "小米", "电脑", "汽车", "新能源",
                  "驾驶", "航天", "科学", "技术", "发明", "未来"]) ∈ KEYWORD_MAP) ∧
    (0 < score "手机" ["AI", "人工智能", "手机", "苹果", "华为", "小米", "电脑", "汽车",
                       "新能源", "驾驶", "航天", "科学", "技术", "发明", "未来"]) ∧
    (∀ q ∈ KEYWORD_MAP, q.1 ≠ "科技数码" → score "手机" q.2 = 0) ∧
    determineCategory "手机" = "科技数码" := by
  refine ⟨by decide, by decide, by decide, ?_⟩
  exact (C2_determineCategory_spec "手机").2.2
    ("科技数码", ["AI", "人工智能", "手机", "苹果", "华为", "小米", "电脑", "汽车", "新能源",
                 "驾驶", "航天", "科学", "技术", "发明", "未来"])
    (by decide) (by decide) (by decide)

/-! ### Round trip of the serialization codec -/

/-- Rebuilding a string from its characters is the identity. -/
theorem strMk_data (s : String) : String.mk s.data = s := by
  cases s
  rfl

/-- Consuming an expected literal strips exactly that prefix. -/
theorem expectChars_append (lit : List Char) :
    ∀ rest, expectChars lit (lit ++ rest) = some rest := by
  induction lit with
  | nil => intro rest; rfl
  | cons c cs ih =>
    intro rest
    simp only [List.cons_append, expectChars, beq_self_eq_true, if_pos]
    exact ih rest

/-- Parsing an escaped string body recovers the original characters and
stops at the closing quote. -/
theorem parseStrChars_escape :
    ∀ (cs rest : List Char), parseStrChars (escapeChars cs ++ ('"' :: rest)) = some (cs, rest) := by
  intro cs
  induction cs with
  | nil =>
    intro rest
    rw [show escapeChars [] ++ ('"' :: rest) = '"' :: rest from rfl]
    rw [parseStrChars.eq_def]
    simp
  | cons c cs ih =>
    intro rest
    by_cases h : c = '"' ∨ c = '\\'
    · have hesc : escapeChars (c :: cs) ++ ('"' :: rest) =
          '\\' :: c :: (escapeChars cs ++ ('"' :: rest)) := by
        rcases h with h | h <;> simp [escapeChars, h]
      rw [hesc, parseStrChars.eq_def]
      have hd : (c = '"' || c = '\\') = true := by
        rcases h with h | h <;> simp [h]
      simp [hd, ih rest]
    · push_neg at h
      have hesc : escapeChars (c :: cs) ++ ('"' :: rest) =
          c :: (escapeChars cs ++ ('"' :: rest)) := by
        simp [escapeChars, h.1, h.2]
      rw [hesc, parseStrChars.eq_def]
      simp [h.1, h.2, ih rest]

/-- Parsing a printed JSON string literal recovers the original string's
characters and the trailing input. -/
theorem parseJStringP_enc (s : String) (rest : List Char) :
    parseJStringP (encStringChars s ++ rest) = some (s.data, rest) := by
  have h : encStringChars s ++ rest = '"' :: (escapeChars s.data ++ ('"' :: rest)) := by
    simp [encStringChars]
  rw [h]
  simp only [parseJStringP]
  exact parseStrChars_escape s.data rest

/-- Digit characters have the expected code points. -/
theorem digitChar_toNat (d : Nat) (hd : d < 10) : (digitChar d).toNat = 48 + d := by
  interval_cases d <;> decide

/-- Digit characters satisfy the digit predicate. -/
theorem isDigitC_digitChar (d : Nat) (hd : d < 10) : isDigitC (digitChar d) = true := by
  interval_cases d <;> decide

/-- The numeric value of a digit character. -/
theorem digitVal_digitChar (d : Nat) (hd : d < 10) : digitVal (digitChar d) = d := by
  interval_cases d <;> decide

/-- Every character printed by `natCharsAux` is a digit. -/
theorem natCharsAux_digits :
    ∀ (fuel n : Nat), n < fuel → ∀ c ∈ natCharsAux fuel n, isDigitC c = true := by
  intro fuel
  induction fuel with
  | zero => intro n hn; omega
  | succ fuel ih =>
    intro n hn c hc
    by_cases h10 : n < 10
    · rw [natCharsAux, if_pos h10] at hc
      rcases List.mem_singleton.mp hc with rfl
      exact isDigitC_digitChar n h10
    · rw [natCharsAux, if_neg h10] at hc
      rcases List.mem_append.mp hc with hc | hc
      · have hdiv : n / 10 < fuel := by
          have := Nat.div_lt_self (show 0 < n by omega) (show 1 < 10 by omega)
          omega
        exact ih (n / 10) hdiv c hc
      · rcases List.mem_singleton.mp hc with rfl
        exact isDigitC_digitChar (n % 10) (Nat.mod_lt n (by omega))

/-- `natCharsAux` always prints at least one digit. -/
theorem natCharsAux_ne_nil (fuel n : Nat) (h : n < fuel) : natCharsAux fuel n ≠ [] := by
  cases fuel with
  | zero => omega
  | succ fuel =>
    by_cases h10 : n < 10
    · rw [natCharsAux, if_pos h10]
      simp
    · rw [natCharsAux, if_neg h10]
      simp

/-- Greedy digit parsing consumes exactly a digit block when the next
character is not a digit. -/
theorem parseNatAux_digits :
    ∀ (ds : List Char), (∀ c ∈ ds, isDigitC c = true) →
      ∀ (acc : Nat) (c : Char) (r : List Char), isDigitC c = false →
      parseNatAux acc (ds ++ (c :: r)) =
        (ds.foldl (fun a ch => a * 10 + digitVal ch) acc, c :: r) := by
  intro ds
  induction ds with
  | nil =>
    intro _ acc c r hc
    simp [parseNatAux, hc]
  | cons d ds ih =>
    intro hall acc c r hc
    have hd : isDigitC d = true := hall d (List.mem_cons_self d ds)
    simp only [List.cons_append, parseNatAux, hd, if_pos, List.foldl_cons]
    exact ih (fun x hx => hall x (List.mem_cons_of_mem d hx)) _ c r hc

/-- The digit fold of `natCharsAux fuel n` recovers `n` (shifted past the
accumulator). -/
theorem natCharsAux_foldl :
    ∀ (fuel n acc : Nat), n < fuel →
      (natCharsAux fuel n).foldl (fun a ch => a * 10 + digitVal ch) acc =
        acc * 10 ^ (natCharsAux fuel n).length + n := by
  intro fuel
  induction fuel with
  | zero => intro n acc hn; omega
  | succ fuel ih =>
    intro n acc hn
    by_cases h10 : n < 10
    · rw [natCharsAux, if_pos h10]
      simp [digitVal_digitChar n h10]
    · rw [natCharsAux, if_neg h10]
      have hdiv : n / 10 < fuel := by
        have := Nat.div_lt_self (show 0 < n by omega) (show 1 < 10 by omega)
        omega
      rw [List.foldl_append, ih (n / 10) acc hdiv]
      simp only [List.foldl_cons, List.foldl_nil, List.length_append, List.length_singleton]
      rw [digitVal_digitChar (n % 10) (Nat.mod_lt n (by omega))]
      have hpow : 10 ^ ((natCharsAux fuel (n / 10)).length + 1) =
          10 ^ (natCharsAux fuel (n / 10)).length * 10 := pow_succ 10 _
      rw [hpow]
      have hdm : n / 10 * 10 + n % 10 = n := by omega
      generalize 10 ^ (natCharsAux fuel (n / 10)).length = K
      calc (acc * K + n / 10) * 10 + n % 10 = acc * (K * 10) + (n / 10 * 10 + n % 10) := by ring
        _ = acc * (K * 10) + n := by rw [hdm]

/-- Parsing the printed digits of a natural recovers it when the next
character is not a digit. -/
theorem parseNatP_natChars (n : Nat) (c : Char) (r : List Char) (hc : isDigitC c = false) :
    parseNatP (natChars n ++ (c :: r)) = some (n, c :: r) := by
  have hlt : n < n + 1 := Nat.lt_succ_self n
  have hall := natCharsAux_digits (n + 1) n hlt
  have hne := natCharsAux_ne_nil (n + 1) n hlt
  rw [natChars]
  cases hds : natCharsAux (n + 1) n with
  | nil => exact absurd hds hne
  | cons d ds =>
    have hd : isDigitC d = true := by
      refine hall d ?_
      rw [hds]
      exact List.mem_cons_self d ds
    have haux := parseNatAux_digits (d :: ds) (by rw [← hds]; exact hall) 0 c r hc
    simp only [List.cons_append, parseNatP, hd, if_pos]
    rw [← List.cons_append, haux]
    have := natCharsAux_foldl (n + 1) n 0 hlt
    rw [hds] at this
    rw [this]
    simp

/-- Parsing printed integer digits recovers the integer when the next
character is not a digit. -/
theorem parseIntP_intChars (i : Int) (c : Char) (r : List Char) (hc : isDigitC c = false) :
    parseIntP (intChars i ++ (c :: r)) = some (i, c :: r) := by
  by_cases hi : i < 0
  · have h1 : intChars i = '-' :: natChars i.natAbs := by rw [intChars, if_pos hi]
    rw [h1, List.cons_append, parseIntP.eq_def]
    simp only [if_pos rfl, parseNatP_natChars i.natAbs c r hc, if_true, Option.map_some']
    have hval : -((i.natAbs : Int)) = i := by omega
    rw [hval]
  · push_neg at hi
    have h1 : intChars i = natChars i.toNat := by rw [intChars, if_neg (by omega)]
    have hlt : i.toNat < i.toNat + 1 := Nat.lt_succ_self _
    have hne := natCharsAux_ne_nil (i.toNat + 1) i.toNat hlt
    have hall := natCharsAux_digits (i.toNat + 1) i.toNat hlt
    rw [h1, natChars]
    cases hds : natCharsAux (i.toNat + 1) i.toNat with
    | nil => exact absurd hds hne
    | cons d ds =>
      have hd : isDigitC d = true := by
        refine hall d ?_
        rw [hds]
        exact List.mem_cons_self d ds
      have hdm : ¬ d = '-' := by
        intro h
        rw [h] at hd
        exact absurd hd (by decide)
      rw [List.cons_append, parseIntP.eq_def]
      simp only [hdm, if_false, ite_false]
      rw [← List.cons_append, ← hds, ← natChars, parseNatP_natChars i.toNat c r hc]
      simp only [Option.map_some']
      have hval : ((i.toNat : Int)) = i := by omega
      rw [hval]

/-- Parsing a printed dimension object recovers the label/analysis pair. -/
theorem parseDimP_enc (lab ana : String) (rest : List Char) :
    parseDimP (encDimChars lab ana ++ rest) = some ((lab, ana), rest) := by
  simp only [parseDimP, encDimChars, List.append_assoc]
  rw [expectChars_append]
  simp only [Option.bind_eq_bind, Option.some_bind]
  rw [parseJStringP_enc]
  simp only [Option.some_bind]
  rw [expectChars_append]
  simp only [Option.some_bind]
  rw [parseJStringP_enc]
  simp only [Option.some_bind]
  rw [expectChars_append]
  simp only [Option.some_bind, strMk_data]

/-- Parsing the printed tail of the keywords array recovers the remaining
keywords, given fuel exceeding their number. -/
theorem parseKwTail_enc :
    ∀ (ks : List String) (fuel : Nat) (rest : List Char), ks.length < fuel →
      parseKwTail fuel (kwsTailChars ks ++ rest) = some (ks, rest) := by
  intro ks
  induction ks with
  | nil =>
    intro fuel rest _
    rw [show kwsTailChars [] ++ rest = ']' :: rest from rfl, parseKwTail.eq_def]
    cases fuel <;> simp
  | cons k ks ih =>
    intro fuel rest h
    cases fuel with
    | zero => simp at h
    | succ f =>
      have hform : kwsTailChars (k :: ks) ++ rest =
          ',' :: '"' :: (escapeChars k.data ++ ('"' :: (kwsTailChars ks ++ rest))) := by
        simp [kwsTailChars, encStringChars, List.append_assoc]
      rw [hform, parseKwTail.eq_def]
      simp only [parseStrChars_escape]
      rw [ih f rest (by simp at h; omega)]
      simp [strMk_data]

/-- Parsing the printed keywords array body recovers the keyword list. -/
theorem parseKwsP_enc (ks : List String) (fuel : Nat) (rest : List Char)
    (h : ks.length ≤ fuel) :
    parseKwsP fuel (kwsInnerChars ks ++ rest) = some (ks, rest) := by
  cases ks with
  | nil =>
    rw [show kwsInnerChars [] ++ rest = ']' :: rest from rfl, parseKwsP.eq_def]
    simp
  | cons k ks =>
    have hform : kwsInnerChars (k :: ks) ++ rest =
        '"' :: (escapeChars k.data ++ ('"' :: (kwsTailChars ks ++ rest))) := by
      simp [kwsInnerChars, encStringChars, List.append_assoc]
    rw [hform, parseKwsP.eq_def]
    simp only [parseStrChars_escape]
    rw [parseKwTail_enc ks fuel rest (by simp at h; omega)]
    simp [strMk_data]

/-- The keywords array body is at least as long as the keyword list. -/
theorem kws_length_le : ∀ ks : List String, ks.length ≤ (kwsInnerChars ks).length := by
  have htail : ∀ ks : List String, ks.length + 1 ≤ (kwsTailChars ks).length := by
    intro ks
    induction ks with
    | nil => simp [kwsTailChars]
    | cons k ks ih =>
      simp only [kwsTailChars, List.length_cons, List.length_append, encStringChars]
      omega
  intro ks
  cases ks with
  | nil => simp [kwsInnerChars]
  | cons k ks =>
    have := htail ks
    simp only [kwsInnerChars, List.length_cons, List.length_append, encStringChars]
    simp only [List.length_cons, List.length_append] at this ⊢
    omega

set_option maxHeartbeats 2000000 in
/-- Round trip of the analysis codec: deserializing a serialized record
recovers the record exactly. -/
theorem parseAnalysis_stringify (a : GeneMapAnalysis) :
    parseAnalysis (stringifyAnalysis a) = some a := by
  have hdata : (stringifyAnalysis a).data = analysisChars a := rfl
  rw [parseAnalysis, hdata]
  have hsen : ∀ Y : List Char,
      ",\"sentiment\":".data ++ Y = ',' :: ("\"sentiment\":".data ++ Y) := fun _ => rfl
  have hlen : a.keywords.length ≤ (kwsInnerChars a.keywords ++ "\x7d".data).length := by
    have h1 := kws_length_le a.keywords
    rw [List.length_append]
    omega
  simp only [parseAnalysisChars, analysisChars, List.append_assoc]
  rw [expectChars_append]
  simp only [Option.bind_eq_bind, Option.some_bind]
  rw [hsen, parseIntP_intChars _ ',' _ (by decide)]
  simp only [Option.some_bind]
  rw [← hsen, expectChars_append]
  simp only [Option.some_bind]
  rw [parseDimP_enc]
  simp only [Option.some_bind]
  rw [expectChars_append]
  simp only [Option.some_bind]
  rw [parseDimP_enc]
  simp only [Option.some_bind]
  rw [expectChars_append]
  simp only [Option.some_bind]
  rw [parseDimP_enc]
  simp only [Option.some_bind]
  rw [expectChars_append]
  simp only [Option.some_bind]
  rw [parseDimP_enc]
  simp only [Option.some_bind]
  rw [expectChars_append]
  simp only [Option.some_bind]
  rw [parseKwsP_enc a.keywords _ _ hlen]
  rfl

/-- C5: a `put` followed by a `get` of the same title returns a record
equal to the one stored (and leaves the store unchanged); a corrupted
(unparseable) entry makes `get` report absent without propagating the
parse error, deleting the entry so that it no longer exists afterwards. -/
theorem C5_cache_spec :
    (∀ (store : Store) (title : String) (a : GeneMapAnalysis),
      cacheGet (cachePut store title a) title = (some a, cachePut store title a)) ∧
    (∀ (store : Store) (title : String) (s : String),
      storeGet store (cacheKey title) = some s → parseAnalysis s = none →
      cacheGet store title = (none, storeRemove store (cacheKey title)) ∧
      storeGet (cacheGet store title).2 (cacheKey title) = none) := by
  constructor
  · intro store title a
    have hget : storeGet (cachePut store title a) (cacheKey title) =
        some (stringifyAnalysis a) := by
      simp [cachePut, storeSet, storeGet]
    rw [cacheGet, hget]
    simp only [parseAnalysis_stringify]
  · intro store title s hs hbad
    have h1 : cacheGet store title = (none, storeRemove store (cacheKey title)) := by
      rw [cacheGet, hs]
      simp only [hbad]
    refine ⟨h1, ?_⟩
    rw [h1]
    simp [storeRemove, storeGet]

/-- C5 witness: the cache laws applied at a concrete title and record, and
at a concrete corrupted entry. -/
theorem C5_witness :
    (cacheGet (cachePut emptyStore "测试话题" FALLBACK_ANALYSIS) "测试话题" =
      (some FALLBACK_ANALYSIS, cachePut emptyStore "测试话题" FALLBACK_ANALYSIS)) ∧
    (storeGet (storeSet emptyStore (cacheKey "测试话题") "corrupted") (cacheKey "测试话题") =
      some "corrupted") ∧
    (parseAnalysis "corrupted" = none) ∧
    (cacheGet (storeSet emptyStore (cacheKey "测试话题") "corrupted") "测试话题" =
      (none, storeRemove (storeSet emptyStore (cacheKey "测试话题") "corrupted")
        (cacheKey "测试话题")) ∧
     storeGet (cacheGet (storeSet emptyStore (cacheKey "测试话题") "corrupted") "测试话题").2
       (cacheKey "测试话题") = none) := by
  refine ⟨C5_cache_spec.1 emptyStore "测试话题" FALLBACK_ANALYSIS, ?_, by decide, ?_⟩
  · simp [storeGet, storeSet]
  · exact C5_cache_spec.2 (storeSet emptyStore (cacheKey "测试话题") "corrupted") "测试话题"
      "corrupted" (by simp [storeGet, storeSet]) (by decide)

/-- C10: with no cache entry for the title, a configured credential and a
non-credential external failure (a rejected call with another message, or
unparseable content), the modal run displays the fixed fallback record and
writes its serialization to the cache; every later modal run for that
title — under any credential, network outcome and parser — serves that
fallback record from the cache without contacting the external service
and without changing the store. -/
theorem C10_fallback_cached (store : Store) (title : String) (k : String)
    (net : DeepSeekOutcome) (parseContent : String → Option GeneMapAnalysis)
    (hnc : storeGet store (cacheKey title) = none)
    (hfail : (∃ msg, net = .failure msg ∧ msg ≠ "MISSING_API_KEY") ∨
             (∃ c u, net = .success c u ∧ parseContent c = none)) :
    analysisModalStep store title (some k) net parseContent =
      (.fetched FALLBACK_ANALYSIS,
       storeSet store (cacheKey title) (stringifyAnalysis FALLBACK_ANALYSIS), true) ∧
    ∀ (apiKey2 : Option String) (net2 : DeepSeekOutcome)
      (parse2 : String → Option GeneMapAnalysis),
      analysisModalStep
        (storeSet store (cacheKey title) (stringifyAnalysis FALLBACK_ANALYSIS))
        title apiKey2 net2 parse2 =
        (.fromCache FALLBACK_ANALYSIS,
         storeSet store (cacheKey title) (stringifyAnalysis FALLBACK_ANALYSIS), false) := by
  have hai : analyzeTrendWithAI (some k) net parseContent title =
      .ok { data := FALLBACK_ANALYSIS, usage := none } := by
    rcases hfail with ⟨msg, rfl, hmsg⟩ | ⟨c, u, rfl, hp⟩
    · simp [analyzeTrendWithAI, callDeepSeek, hmsg]
    · simp [analyzeTrendWithAI, callDeepSeek, hp]
  constructor
  · simp only [analysisModalStep, hnc, modalFetch, hai]
  · intro apiKey2 net2 parse2
    have hget : storeGet
        (storeSet store (cacheKey title) (stringifyAnalysis FALLBACK_ANALYSIS))
        (cacheKey title) = some (stringifyAnalysis FALLBACK_ANALYSIS) := by
      simp [storeGet, storeSet]
    simp only [analysisModalStep, hget, parseAnalysis_stringify]

/-- C10 witness: the theorem applied at an empty store, title 测试话题,
credential configured and the network rejecting with a non-credential
message. -/
theorem C10_witness :
    (storeGet emptyStore (cacheKey "测试话题") = none) ∧
    ((∃ msg, (DeepSeekOutcome.failure "boom") = .failure msg ∧ msg ≠ "MISSING_API_KEY") ∨
     (∃ c u, (DeepSeekOutcome.failure "boom") = .success c u ∧
             (fun _ : String => (none : Option GeneMapAnalysis)) c = none)) ∧
    analysisModalStep emptyStore "测试话题" (some "sk") (.failure "boom")
      (fun _ => (none : Option GeneMapAnalysis)) =
      (.fetched FALLBACK_ANALYSIS,
       storeSet emptyStore (cacheKey "测试话题") (stringifyAnalysis FALLBACK_ANALYSIS),
       true) ∧
    analysisModalStep
      (storeSet emptyStore (cacheKey "测试话题") (stringifyAnalysis FALLBACK_ANALYSIS))
      "测试话题" none (.failure "down") (fun _ => (none : Option GeneMapAnalysis)) =
      (.fromCache FALLBACK_ANALYSIS,
       storeSet emptyStore (cacheKey "测试话题") (stringifyAnalysis FALLBACK_ANALYSIS),
       false) := by
  have h := C10_fallback_cached emptyStore "测试话题" "sk" (.failure "boom")
    (fun _ => (none : Option GeneMapAnalysis)) rfl
    (Or.inl ⟨"boom", rfl, by decide⟩)
  exact ⟨rfl, Or.inl ⟨"boom", rfl, by decide⟩, h.1,
    h.2 none (.failure "down") (fun _ => (none : Option GeneMapAnalysis))⟩

end DMedia
